import Mathlib

/-!
Verification of the Synm mediator core against its source
(`mediator/app`): the tamper-evident audit chain (`audit/logger.py`),
session lifecycle (`store/sql.py`), policy engine (`policies/engine.py`),
PII redaction (`redact/pii.py`) and the context assembly pipeline
(`main.py`). Every definition below is a shallow embedding of the
corresponding Python code; datetimes are modelled as integers, SQLite
tables as Lean lists of row structures, and the `re` module by a small
backtracking matcher with the same leftmost, priority-ordered semantics.
-/

namespace Synm

/-! ## UTF-8 and SHA-256 (`hashlib.sha256(x.encode()).hexdigest()`) -/

/-- UTF-8 encoding of a single character, as byte values. -/
def utf8EncodeChar (c : Char) : List Nat :=
  let n := c.toNat
  if n < 128 then [n]
  else if n < 2048 then [192 ||| (n >>> 6), 128 ||| (n &&& 63)]
  else if n < 65536 then
    [224 ||| (n >>> 12), 128 ||| ((n >>> 6) &&& 63), 128 ||| (n &&& 63)]
  else
    [240 ||| (n >>> 18), 128 ||| ((n >>> 12) &&& 63),
     128 ||| ((n >>> 6) &&& 63), 128 ||| (n &&& 63)]

/-- Bytes of `s.encode()` (UTF-8). -/
def utf8Bytes (s : String) : List Nat :=
  (s.data.map utf8EncodeChar).flatten

/-- Byte length of `s.encode()`. -/
def utf8Len (s : String) : Nat := (utf8Bytes s).length

/-- Truncate to 32 bits. -/
def m32 (x : Nat) : Nat := x % 4294967296

/-- Rotate a 32-bit word right by `n`. -/
def rotr32 (n x : Nat) : Nat := m32 ((x >>> n) ||| (x <<< (32 - n)))

/-- The first sixty-four primes; FIPS 180-4 derives the SHA-256 constants
from their roots. -/
def sha256Primes : List Nat :=
  [2, 3, 5, 7, 11, 13, 17, 19, 23, 29, 31, 37, 41, 43, 47, 53,
   59, 61, 67, 71, 73, 79, 83, 89, 97, 101, 103, 107, 109, 113, 127, 131,
   137, 139, 149, 151, 157, 163, 167, 173, 179, 181, 191, 193, 197, 199, 211, 223,
   227, 229, 233, 239, 241, 251, 257, 263, 269, 271, 277, 281, 283, 293, 307, 311]

/-- Bisection step for the integer cube root on the bracket `(lo, hi]`. -/
def natCbrtAux (n : Nat) : Nat → Nat → Nat → Nat
  | 0, lo, _ => lo
  | f + 1, lo, hi =>
    let mid := (lo + hi) / 2
    if mid ≤ lo then lo
    else if mid * mid * mid ≤ n then natCbrtAux n f mid hi
    else natCbrtAux n f lo mid

/-- Integer cube root: the largest `x` with `x * x * x ≤ n`. -/
def natCbrt (n : Nat) : Nat := natCbrtAux n 200 0 (n + 1)

/-- The first 32 fractional bits of the cube root of `p`. -/
def fracCbrt32 (p : Nat) : Nat := natCbrt (p <<< 96) % 4294967296

/-- SHA-256 round constants (FIPS 180-4): the fractional cube-root bits of
the first sixty-four primes. -/
def sha256K : List Nat := sha256Primes.map fracCbrt32

/-- The first 32 fractional bits of the square root of `p`. -/
def fracSqrt32 (p : Nat) : Nat := Nat.sqrt (p <<< 64) % 4294967296

/-- SHA-256 initial hash value (FIPS 180-4): the fractional square-root
bits of the first eight primes. -/
def sha256H0 : List Nat := (sha256Primes.take 8).map fracSqrt32

/-- Big-endian 8-byte encoding of a 64-bit length. -/
def be64 (n : Nat) : List Nat :=
  [(n >>> 56) &&& 255, (n >>> 48) &&& 255, (n >>> 40) &&& 255,
   (n >>> 32) &&& 255, (n >>> 24) &&& 255, (n >>> 16) &&& 255,
   (n >>> 8) &&& 255, n &&& 255]

/-- SHA-256 message padding: append 0x80, zeros to 56 mod 64, then the
bit length as a big-endian 64-bit integer. -/
def sha256Pad (msg : List Nat) : List Nat :=
  let padZeros := (55 + 64 - msg.length % 64) % 64
  msg ++ [128] ++ List.replicate padZeros 0 ++ be64 (8 * msg.length)

/-- Combine bytes into big-endian 32-bit words. -/
def toWords : List Nat → List Nat
  | a :: b :: c :: d :: rest =>
    ((((a <<< 8) ||| b) <<< 8 ||| c) <<< 8 ||| d) :: toWords rest
  | _ => []

/-- Split a word list into 16-word blocks. -/
def chunks16 (ws : List Nat) : List (List Nat) :=
  if h : ws = [] then []
  else (ws.take 16) :: chunks16 (ws.drop 16)
termination_by ws.length
decreasing_by
  simp only [List.length_drop]
  exact Nat.sub_lt (List.length_pos.mpr h) (by norm_num)

/-- Next message-schedule word from the current schedule. -/
def schedWord (w : List Nat) : Nat :=
  let n := w.length
  let g := fun i => w.getD i 0
  let s0 := (rotr32 7 (g (n - 15))) ^^^ (rotr32 18 (g (n - 15))) ^^^ ((g (n - 15)) >>> 3)
  let s1 := (rotr32 17 (g (n - 2))) ^^^ (rotr32 19 (g (n - 2))) ^^^ ((g (n - 2)) >>> 10)
  m32 (g (n - 16) + s0 + g (n - 7) + s1)

/-- Extend the 16-word block by `k` schedule words. -/
def sha256Schedule : Nat → List Nat → List Nat
  | 0, w => w
  | k + 1, w => sha256Schedule k (w ++ [schedWord w])

/-- One SHA-256 compression round over state `[a,b,c,d,e,f,g,h]`. -/
def compressStep (st : List Nat) (kw : Nat × Nat) : List Nat :=
  match st with
  | [a, b, c, d, e, f, g, h] =>
    let S1 := (rotr32 6 e) ^^^ (rotr32 11 e) ^^^ (rotr32 25 e)
    let ch := (e &&& f) ^^^ ((4294967295 - e) &&& g)
    let t1 := m32 (h + S1 + ch + kw.1 + kw.2)
    let S0 := (rotr32 2 a) ^^^ (rotr32 13 a) ^^^ (rotr32 22 a)
    let maj := (a &&& b) ^^^ (a &&& c) ^^^ (b &&& c)
    let t2 := m32 (S0 + maj)
    [m32 (t1 + t2), a, b, c, m32 (d + t1), e, f, g]
  | other => other

/-- Process one 512-bit block. -/
def sha256Block (H : List Nat) (chunk : List Nat) : List Nat :=
  let w := sha256Schedule 48 chunk
  let st := (sha256K.zip w).foldl compressStep H
  (H.zip st).map (fun p => m32 (p.1 + p.2))

/-- Lowercase hex digit. -/
def hexDigitChar (n : Nat) : Char :=
  if n < 10 then Char.ofNat (48 + n) else Char.ofNat (87 + n)

/-- Eight-hex-digit rendering of a 32-bit word. -/
def word32Hex (x : Nat) : String :=
  ⟨(List.range 8).map (fun i => hexDigitChar ((x >>> (28 - 4 * i)) &&& 15))⟩

/-- `hashlib.sha256(s.encode()).hexdigest()`. -/
def sha256hex (s : String) : String :=
  let blocks := chunks16 (toWords (sha256Pad (utf8Bytes s)))
  String.join ((blocks.foldl sha256Block sha256H0).map word32Hex)

/-! ## Canonical JSON (`json.dumps(..., sort_keys=True)`) -/

/-- JSON values as produced and consumed by the audit logger. -/
inductive Json where
  | null
  | bool (b : Bool)
  | num (n : Int)
  | str (s : String)
  | arr (xs : List Json)
  | obj (kvs : List (String × Json))
deriving Repr, BEq

/-- Four-hex-digit escape payload. -/
def hex4 (n : Nat) : String :=
  ⟨[hexDigitChar ((n >>> 12) &&& 15), hexDigitChar ((n >>> 8) &&& 15),
    hexDigitChar ((n >>> 4) &&& 15), hexDigitChar (n &&& 15)]⟩

/-- JSON string escaping as `json.dumps` performs it (ensure_ascii). -/
def jsonEscapeChar (c : Char) : String :=
  if c = '"' then "\\\""
  else if c = '\\' then "\\\\"
  else if c = '\n' then "\\n"
  else if c = '\t' then "\\t"
  else if c = '\r' then "\\r"
  else if c.toNat = 8 then "\\b"
  else if c.toNat = 12 then "\\f"
  else if c.toNat < 32 || c.toNat > 127 then "\\u" ++ hex4 c.toNat
  else String.singleton c

/-- Quoted JSON string literal. -/
def jsonQuote (s : String) : String :=
  "\"" ++ String.join (s.data.map jsonEscapeChar) ++ "\""

/-- Join with the `", "` item separator `json.dumps` uses by default. -/
def joinComma : List String → String
  | [] => ""
  | [x] => x
  | x :: xs => x ++ ", " ++ joinComma xs

/-- Insert into a key-sorted list of rendered pairs (stable). -/
def insertByKey (x : String × String) : List (String × String) → List (String × String)
  | [] => [x]
  | y :: ys => if x.1 < y.1 then x :: y :: ys else y :: insertByKey x ys

/-- Sort rendered pairs by key, as `sort_keys=True` sorts dict keys. -/
def sortPairsByKey : List (String × String) → List (String × String)
  | [] => []
  | x :: xs => insertByKey x (sortPairsByKey xs)

mutual

/-- `json.dumps(v, sort_keys=True)` with the default separators. -/
def Json.dumps : Json → String
  | .null => "null"
  | .bool b => if b then "true" else "false"
  | .num n => toString n
  | .str s => jsonQuote s
  | .arr xs => "[" ++ joinComma (Json.dumpsList xs) ++ "]"
  | .obj kvs =>
    "\x7b" ++
      joinComma ((sortPairsByKey (Json.dumpsKVs kvs)).map
        (fun p => jsonQuote p.1 ++ ": " ++ p.2)) ++ "\x7d"

/-- Render each array element. -/
def Json.dumpsList : List Json → List String
  | [] => []
  | x :: xs => Json.dumps x :: Json.dumpsList xs

/-- Render each object value, keeping keys for sorting. -/
def Json.dumpsKVs : List (String × Json) → List (String × String)
  | [] => []
  | (k, v) :: xs => (k, Json.dumps v) :: Json.dumpsKVs xs

end

/-! ## Audit chain (`app/audit/logger.py`, class `AuditLogger`)

The `audit_log` SQLite table is modelled as a `List AuditRow` in insertion
(`id`) order. The `metadata` TEXT column holds `json.dumps(metadata or {})`
of a JSON object; we model the column by the object itself (a key-value
list), since `json.dumps`/`json.loads` round-trip it exactly, and
`verify_integrity` re-serialises it with `sort_keys=True` just as
`log_event` did when hashing. -/

/-- Python `Optional[str]` argument under an `if x:` truthiness guard:
`None` and `""` are both falsy. -/
def pyTruthyStr : Option String → Option String
  | some t => if t = "" then none else some t
  | none => none

/-- The dict `event_data` hashed by `log_event` and rebuilt by
`verify_integrity`: `{timestamp, event_type, session_id, profile,
user_token_hash, metadata}`. -/
structure EventData where
  timestamp : String
  event_type : String
  session_id : Option String
  profile : Option String
  user_token_hash : Option String
  metadata : List (String × Json)
deriving Repr, BEq

/-- A row of the `audit_log` table. -/
structure AuditRow where
  timestamp : String
  event_type : String
  session_id : Option String
  profile : Option String
  user_token_hash : Option String
  metadata : List (String × Json)
  hash : String
  previous_hash : Option String
deriving Repr, BEq

/-- The event fields of a stored row, as `verify_integrity` rebuilds them. -/
def AuditRow.fields (r : AuditRow) : EventData :=
  ⟨r.timestamp, r.event_type, r.session_id, r.profile, r.user_token_hash, r.metadata⟩

/-- `None`-valued dict entries serialise as JSON `null`. -/
def optJson : Option String → Json
  | none => Json.null
  | some s => Json.str s

/-- The canonical serialisation `json.dumps(event_data, sort_keys=True)`. -/
def EventData.canonical (ed : EventData) : String :=
  Json.dumps (Json.obj
    [("timestamp", Json.str ed.timestamp),
     ("event_type", Json.str ed.event_type),
     ("session_id", optJson ed.session_id),
     ("profile", optJson ed.profile),
     ("user_token_hash", optJson ed.user_token_hash),
     ("metadata", Json.obj ed.metadata)])

/-- `AuditLogger._calculate_hash`: SHA-256 of the canonical serialisation,
prefixed by `previous_hash` and a colon when the previous hash is truthy. -/
def calculateHash (ed : EventData) (previousHash : Option String) : String :=
  let canonical := ed.canonical
  let withPrev :=
    match previousHash with
    | some p => if p = "" then canonical else p ++ ":" ++ canonical
    | none => canonical
  sha256hex withPrev

/-- The one-way digest `log_event` stores for a caller token:
`hashlib.sha256(user_token.encode()).hexdigest()[:16]`. -/
def tokenHash (t : String) : String := (sha256hex t).take 16

/-- Arguments of one `log_event` call. The timestamp is the value
`datetime.utcnow().isoformat()` produced inside the call. -/
structure LogArgs where
  event_type : String
  session_id : Option String
  profile : Option String
  metadata : Option (List (String × Json))
  user_token : Option String
  timestamp : String
deriving Repr

/-- `AuditLogger._get_last_hash`: hash of the row with greatest `id`. -/
def getLastHash (chain : List AuditRow) : Option String :=
  chain.getLast?.map (·.hash)

/-- `AuditLogger.log_event`: hash the token if truthy, read the tail hash,
compute the event hash over the canonical fields plus the tail hash, and
insert the new row. -/
def logEvent (chain : List AuditRow) (a : LogArgs) : List AuditRow :=
  let user_token_hash := (pyTruthyStr a.user_token).map tokenHash
  let previous_hash := getLastHash chain
  let ed : EventData :=
    ⟨a.timestamp, a.event_type, a.session_id, a.profile, user_token_hash, a.metadata.getD []⟩
  let event_hash := calculateHash ed previous_hash
  chain ++ [⟨a.timestamp, a.event_type, a.session_id, a.profile, user_token_hash,
             a.metadata.getD [], event_hash, previous_hash⟩]

/-- A sequence of `log_event` calls against a store. -/
def appendAll (chain : List AuditRow) (args : List LogArgs) : List AuditRow :=
  args.foldl logEvent chain

/-- The loop body of `AuditLogger.verify_integrity` for rows after the
first: recompute the hash from the stored fields and the stored
`previous_hash`, compare with the stored `hash`, and check the stored
`previous_hash` against the hash of the preceding row. -/
def verifyFrom (prev : AuditRow) : List AuditRow → Bool
  | [] => true
  | r :: rs =>
    (calculateHash r.fields r.previous_hash == r.hash) &&
    (r.previous_hash == some prev.hash) &&
    verifyFrom r rs

/-- `AuditLogger.verify_integrity`: empty log verifies; the first row must
have a null `previous_hash` (its other fields are not checked); later rows
go through `verifyFrom`. -/
def verifyIntegrity : List AuditRow → Bool
  | [] => true
  | r0 :: rest => (!r0.previous_hash.isSome) && verifyFrom r0 rest

/-! ### Two-phase view of `log_event` (for the concurrency claim)

`log_event` reads the tail hash in one `aiosqlite` connection and inserts
the new row in another, with `await` suspension points between the two; the
phases below split it at that boundary. `logEvent_phases` ties the split to
the sequential definition. -/

/-- Phase 1 of `log_event`: `previous_hash = await self._get_last_hash()`. -/
def readTailPhase (chain : List AuditRow) : Option String := getLastHash chain

/-- Phase 2 of `log_event`: compute the event hash from the observed tail
and insert. -/
def insertPhase (chain : List AuditRow) (a : LogArgs) (observedTail : Option String) :
    List AuditRow :=
  let user_token_hash := (pyTruthyStr a.user_token).map tokenHash
  let ed : EventData :=
    ⟨a.timestamp, a.event_type, a.session_id, a.profile, user_token_hash, a.metadata.getD []⟩
  chain ++ [⟨a.timestamp, a.event_type, a.session_id, a.profile, user_token_hash,
             a.metadata.getD [], calculateHash ed observedTail, observedTail⟩]

/-- Sequential execution of the two phases is exactly `log_event`. -/
lemma logEvent_phases (chain : List AuditRow) (a : LogArgs) :
    logEvent chain a = insertPhase chain a (readTailPhase chain) := rfl

/-! ## Session store (`app/store/sql.py`, class `SQLStore`)

The `sessions` table is a `List SessionModel`; `id` is the primary key, so
at most one row matches a given id and SQLAlchemy `scalar_one_or_none`
is the first (only) match. Datetimes are modelled as integers. -/

/-- A row of the `sessions` table (`class SessionModel`). -/
structure SessionModel where
  id : String
  profile : String
  expires_at : Int
  user_token : String
  created_at : Int
  revoked : Bool
deriving Repr, DecidableEq

/-- `SQLStore.create_session`: insert a fresh row with `revoked=False`
(the default) and return it. `created_at` is the `datetime.utcnow()`
default evaluated at insert time. -/
def createSession (store : List SessionModel) (session_id profile : String)
    (expires_at : Int) (user_token : String) (created_at : Int) :
    SessionModel × List SessionModel :=
  let db_session : SessionModel :=
    ⟨session_id, profile, expires_at, user_token, created_at, false⟩
  (db_session, store ++ [db_session])

/-- The dict `SQLStore.get_session` returns: id, profile, expiry and
creation time only (no token, no revoked flag). -/
structure SessionView where
  id : String
  profile : String
  expires_at : Int
  created_at : Int
deriving Repr, DecidableEq

/-- `SQLStore.get_session`: select by id with `revoked == False`; absent
and revoked sessions both yield `None`. -/
def getSession (store : List SessionModel) (session_id : String) : Option SessionView :=
  match store.find? (fun s => s.id == session_id && !s.revoked) with
  | some s => some ⟨s.id, s.profile, s.expires_at, s.created_at⟩
  | none => none

/-- `SQLStore.revoke_session`: select by id only (revoked or not); if a
row exists, set `revoked = True` and return `True`, else return `False`. -/
def revokeSession (store : List SessionModel) (session_id : String) :
    Bool × List SessionModel :=
  match store.find? (fun s => s.id == session_id) with
  | some _ =>
    (true, store.map (fun s => if s.id == session_id then { s with revoked := true } else s))
  | none => (false, store)

/-- A row of the `scope_data` table (`class ScopeData`). -/
structure ScopeData where
  scope : String
  content : String
  meta_data : String
  created_at : Int
  updated_at : Int
deriving Repr, DecidableEq

/-- The dict `SQLStore.get_scope_data` returns. -/
structure ScopeView where
  content : String
  metadata : String
  updated_at : Int
deriving Repr, DecidableEq

/-- Insert into a list sorted by `updated_at` descending (stable). -/
def insertDescByUpdated (x : ScopeData) : List ScopeData → List ScopeData
  | [] => [x]
  | y :: ys => if y.updated_at < x.updated_at then x :: y :: ys else y :: insertDescByUpdated x ys

/-- `ORDER BY updated_at DESC` over the matching rows. -/
def sortByUpdatedDesc : List ScopeData → List ScopeData
  | [] => []
  | x :: xs => insertDescByUpdated x (sortByUpdatedDesc xs)

/-- `SQLStore.get_scope_data`: newest row for the scope, if any. -/
def getScopeData (rows : List ScopeData) (scope : String) : Option ScopeView :=
  match sortByUpdatedDesc (rows.filter (fun r => r.scope == scope)) with
  | [] => none
  | r :: _ => some ⟨r.content, r.meta_data, r.updated_at⟩

/-! ## Policy engine (`app/policies/engine.py`, class `PolicyEngine`)

Only the `profiles` map matters to the claims; a profile config is a YAML
mapping whose `allowed_scopes` and `redactions` keys may each be absent
(`dict.get` with a `[]` default). -/

/-- One profile entry of the merged policy document. -/
structure ProfileConfig where
  allowed_scopes : Option (List String)
  redactions : Option (List String)
deriving Repr, DecidableEq

/-- The loaded policy state (`self.profiles`). -/
structure PolicyEngine where
  profiles : List (String × ProfileConfig)
deriving Repr

/-- Membership lookup `profile in self.profiles` + `self.profiles[profile]`. -/
def lookupProfile (e : PolicyEngine) (p : String) : Option ProfileConfig :=
  (e.profiles.find? (fun kv => kv.1 == p)).map (·.2)

/-- `PolicyEngine.check_access`: unknown profile is denied; otherwise every
requested scope must be in the profile allowed scopes. -/
def checkAccess (e : PolicyEngine) (profile : String) (requested_scopes : List String) : Bool :=
  match lookupProfile e profile with
  | none => false
  | some cfg => requested_scopes.all (fun s => (cfg.allowed_scopes.getD []).contains s)

/-- `PolicyEngine.get_redaction_rules`: the profile redaction list, or the
`['mask_all']` sentinel for an unknown profile. -/
def getRedactionRules (e : PolicyEngine) (profile : String) : List String :=
  match lookupProfile e profile with
  | none => ["mask_all"]
  | some cfg => cfg.redactions.getD []

/-! ## Size bounding (`main.py`, `get_context` lines 209-212) -/

/-- Index of the last occurrence of a space, if any. -/
def lastSpaceIdx (cs : List Char) : Option Nat :=
  (List.range cs.length).foldl
    (fun acc i => if cs.get? i == some ' ' then some i else acc) none

/-- `s.rsplit(' ', 1)[0]`: everything before the last space, or the whole
string when there is no space. -/
def pyRsplitSpaceHead (s : String) : String :=
  match lastSpaceIdx s.data with
  | some i => ⟨s.data.take i⟩
  | none => s

/-- The size clamp in `get_context`: when the UTF-8 byte length exceeds the
ceiling, slice to `max_bytes` characters, drop the final (possibly partial)
word after the last space, and append the `"..."` marker. -/
def enforceSize (redactedContext : String) (maxBytes : Nat) : String :=
  if utf8Len redactedContext > maxBytes then
    pyRsplitSpaceHead ⟨redactedContext.data.take maxBytes⟩ ++ "..."
  else redactedContext

/-! ## Regular expressions (`re.sub` as `app/redact/pii.py` uses it)

A backtracking matcher in continuation-passing style, with the priority
semantics of the Python `re` module: leftmost starting position wins,
alternatives are tried left to right, optional and counted pieces try the
longer possibility first, and `*`/`+` are greedy with full backtracking.
Each concrete pattern from `pii.py` is transcribed below; the affected
character classes are built case-insensitively when the source passes
`flags=re.IGNORECASE`. -/

/-- Regular expression syntax: empty, character class, sequencing,
prioritised alternation, greedy star, and the `\b` word boundary. -/
inductive RE where
  | eps
  | cls (p : Char → Bool)
  | seq (a b : RE)
  | alt (a b : RE)
  | star (a : RE)
  | wb

/-- Literal character. -/
def RE.chr (c : Char) : RE := .cls (fun d => d == c)

/-- Literal character under `re.IGNORECASE`. -/
def RE.chrCI (c : Char) : RE := .cls (fun d => d.toLower == c.toLower)

/-- Literal word under `re.IGNORECASE`. -/
def RE.strCI (s : String) : RE :=
  s.data.foldr (fun c r => .seq (.chrCI c) r) .eps

/-- `r?` (greedy: try the present branch first). -/
def RE.opt (a : RE) : RE := .alt a .eps

/-- `r+` (greedy). -/
def RE.plus (a : RE) : RE := .seq a (.star a)

/-- `r{n}`. -/
def RE.rep (a : RE) : Nat → RE
  | 0 => .eps
  | n + 1 => .seq a (RE.rep a n)

/-- `r{0,n}` (greedy: longer counts first). -/
def RE.repUpTo (a : RE) : Nat → RE
  | 0 => .eps
  | n + 1 => .alt (.seq a (RE.repUpTo a n)) .eps

/-- Python alternation `x|y|z`, tried in the listed order. -/
def RE.anyOf : List RE → RE
  | [] => .cls (fun _ => false)
  | [r] => r
  | r :: rs => .alt r (RE.anyOf rs)

/-- ASCII digit. -/
def isDigitCh (c : Char) : Bool := '0' ≤ c && c ≤ '9'

/-- ASCII letter. -/
def isAsciiAlpha (c : Char) : Bool := ('a' ≤ c && c ≤ 'z') || ('A' ≤ c && c ≤ 'Z')

/-- `\w` over the ASCII inputs in play. -/
def isWordCh (c : Char) : Bool := isAsciiAlpha c || isDigitCh c || c == '_'

/-- `\s`: space, tab, newline, carriage return, vertical tab, form feed. -/
def isSpaceCh (c : Char) : Bool :=
  c == ' ' || c == '\t' || c == '\n' || c == '\r' || c.toNat == 11 || c.toNat == 12

/-- Whether position `i` of the character list sits on a word character. -/
def wordAt (s : List Char) (i : Nat) : Bool :=
  match s.get? i with
  | some c => isWordCh c
  | none => false

/-- `\b`: word-character status changes across the position. -/
def atBoundary (s : List Char) (i : Nat) : Bool :=
  (if i == 0 then false else wordAt s (i - 1)) != wordAt s i

/-- Size of a pattern, used to provision matcher fuel. -/
def RE.size : RE → Nat
  | .eps => 1
  | .cls _ => 1
  | .wb => 1
  | .seq a b => a.size + b.size + 1
  | .alt a b => a.size + b.size + 1
  | .star a => a.size + 1

/-- The CPS matcher: `reMatch fuel r s i k` tries to match `r` at
position `i` of `s`, calling `k` on the end position of each candidate in
priority order; the first success wins. Recursion is structural on `fuel`,
which drops by one per call; a star iteration must consume input and each
nesting level costs one unit, so `s.length + r.size + 2` (what `matchAt`
supplies) never runs out. -/
def reMatch : Nat → RE → List Char → Nat → (Nat → Option Nat) → Option Nat
  | 0, _, _, _, _ => none
  | fuel + 1, re, s, i, k =>
    match re with
    | .eps => k i
    | .cls p =>
      match s.get? i with
      | some c => if p c then k (i + 1) else none
      | none => none
    | .seq a b => reMatch fuel a s i (fun j => reMatch fuel b s j k)
    | .alt a b =>
      match reMatch fuel a s i k with
      | some r => some r
      | none => reMatch fuel b s i k
    | .wb => if atBoundary s i then k i else none
    | .star a =>
      match reMatch fuel a s i
          (fun j => if i < j then reMatch fuel (.star a) s j k else none) with
      | some r => some r
      | none => k i

/-- End position of the priority-first match of `re` at position `i`. -/
def matchAt (re : RE) (s : List Char) (i : Nat) : Option Nat :=
  reMatch (s.length + re.size + 2) re s i some

/-- Scan loop for the leftmost match at or after `pos`; fuel is the
number of start positions left to try. -/
def findMatchFromAux : Nat → RE → List Char → Nat → Option (Nat × Nat)
  | 0, _, _, _ => none
  | fuel + 1, re, s, pos =>
    match matchAt re s pos with
    | some e => some (pos, e)
    | none => findMatchFromAux fuel re s (pos + 1)

/-- Leftmost match at or after `pos`: the `(start, end)` Python `re`
search finds. -/
def findMatchFrom (re : RE) (s : List Char) (pos : Nat) : Option (Nat × Nat) :=
  findMatchFromAux (s.length + 1 - pos) re s pos

/-- The characters of `s[a:b]`. -/
def listSlice (s : List Char) (a b : Nat) : List Char := (s.drop a).take (b - a)

/-- Replacement loop of `re.sub`: copy up to the next match, emit the
replacement, and resume after the match (advancing one character after an
empty match, as Python does). -/
def reSubAux : Nat → RE → List Char → List Char → Nat → List Char
  | 0, _, _, s, pos => s.drop pos
  | fuel + 1, re, repl, s, pos =>
    match findMatchFrom re s pos with
    | none => s.drop pos
    | some (st, en) =>
      listSlice s pos st ++ repl ++
        (if st < en then reSubAux fuel re repl s en
         else
           match s.get? st with
           | some c => c :: reSubAux fuel re repl s (st + 1)
           | none => [])

/-- `re.sub(pattern, repl, s)`. -/
def reSub (re : RE) (repl : String) (s : String) : String :=
  ⟨reSubAux (s.data.length + 1) re repl.data s.data 0⟩

/-! ## PII redaction (`app/redact/pii.py`, class `PIIRedactor`) -/

/-- Local part class of the email pattern: `[A-Za-z0-9._%+-]`. -/
def emailLocalCh (c : Char) : Bool :=
  isAsciiAlpha c || isDigitCh c || c == '.' || c == '_' || c == '%' || c == '+' || c == '-'

/-- Domain class of the email pattern: `[A-Za-z0-9.-]`. -/
def emailDomCh (c : Char) : Bool :=
  isAsciiAlpha c || isDigitCh c || c == '.' || c == '-'

/-- Final class of the email pattern: `[A-Z|a-z]` (the `|` is literal). -/
def emailTldCh (c : Char) : Bool := isAsciiAlpha c || c == '|'

/-- `\b[A-Za-z0-9._%+-]+@[A-Za-z0-9.-]+\.[A-Z|a-z]{2,}\b` (`mask_emails`). -/
def reEmail : RE :=
  .seq .wb (.seq (.plus (.cls emailLocalCh))
    (.seq (.chr '@') (.seq (.plus (.cls emailDomCh))
      (.seq (.chr '.') (.seq (.seq (.cls emailTldCh) (.plus (.cls emailTldCh))) .wb)))))

/-- `\d`. -/
def reDigit : RE := .cls isDigitCh

/-- `[\s.-]` as used by the phone pattern. -/
def phoneSepCh (c : Char) : Bool := isSpaceCh c || c == '.' || c == '-'

/-- The optional leading group `(\+?[1-9]\d{0,2}[\s.-]?)?` of the phone
pattern. -/
def rePhoneCountry : RE :=
  .seq (RE.opt (RE.chr '+'))
    (.seq (.cls (fun c => '1' ≤ c && c ≤ '9'))
      (.seq (RE.repUpTo reDigit 2) (RE.opt (.cls phoneSepCh))))

/-- `(\+?[1-9]\d{0,2}[\s.-]?)?\(?\d{3}\)?[\s.-]?\d{3}[\s.-]?\d{4}`
(`drop_phone`). -/
def rePhone : RE :=
  .seq (RE.opt rePhoneCountry)
    (.seq (RE.opt (RE.chr '('))
      (.seq (RE.rep reDigit 3)
        (.seq (RE.opt (RE.chr ')'))
          (.seq (RE.opt (.cls phoneSepCh))
            (.seq (RE.rep reDigit 3)
              (.seq (RE.opt (.cls phoneSepCh)) (RE.rep reDigit 4)))))))

/-- `\d+\s+[\w\s]+(?:street|st|...|blvd)\b` (`drop_exact_address`). -/
def reAddress : RE :=
  .seq (RE.plus reDigit)
    (.seq (RE.plus (.cls isSpaceCh))
      (.seq (RE.plus (.cls (fun c => isWordCh c || isSpaceCh c)))
        (.seq (RE.anyOf (["street", "st", "avenue", "ave", "road", "rd", "highway", "hwy",
                          "lane", "ln", "drive", "dr", "court", "ct", "circle", "cir",
                          "boulevard", "blvd"].map RE.strCI)) .wb)))

/-- `\b\d{3}-\d{2}-\d{4}\b` (`mask_ssn`). -/
def reSSN : RE :=
  .seq .wb (.seq (RE.rep reDigit 3)
    (.seq (RE.chr '-') (.seq (RE.rep reDigit 2)
      (.seq (RE.chr '-') (.seq (RE.rep reDigit 4) .wb)))))

/-- `[\s-]` as used by the credit-card pattern. -/
def ccSepCh (c : Char) : Bool := isSpaceCh c || c == '-'

/-- `\b(?:\d{4}[\s-]?){3}\d{4}\b` (`mask_credit_card`). -/
def reCreditCard : RE :=
  .seq .wb (.seq (RE.rep (.seq (RE.rep reDigit 4) (RE.opt (.cls ccSepCh))) 3)
    (.seq (RE.rep reDigit 4) .wb))

/-- `\d{1,3}`. -/
def reD13 : RE := .seq reDigit (RE.repUpTo reDigit 2)

/-- `\b(?:\d{1,3}\.){3}\d{1,3}\b` (`mask_ip`). -/
def reIP : RE :=
  .seq .wb (.seq (RE.rep (.seq reD13 (RE.chr '.')) 3) (.seq reD13 .wb))

/-- `self.redaction_patterns`, in the registry (dict insertion) order. -/
def redactionPatterns : List (String × RE × String) :=
  [("mask_emails", reEmail, "[EMAIL]"),
   ("drop_phone", rePhone, "[PHONE]"),
   ("drop_exact_address", reAddress, "[ADDRESS]"),
   ("mask_ssn", reSSN, "[SSN]"),
   ("mask_credit_card", reCreditCard, "[CREDIT_CARD]"),
   ("mask_ip", reIP, "[IP_ADDRESS]")]

/-- `rule in self.redaction_patterns` plus the lookup. -/
def lookupRule (rule : String) : Option (RE × String) :=
  (redactionPatterns.find? (fun t => t.1 == rule)).map (·.2)

/-- Month names of the date-of-birth pattern. -/
def monthNames : List String :=
  ["January", "February", "March", "April", "May", "June", "July",
   "August", "September", "October", "November", "December"]

/-- `\b(?:January|...|December)\s+\d{1,2},?\s+\d{4}\b` (IGNORECASE). -/
def reDob : RE :=
  .seq .wb (.seq (RE.anyOf (monthNames.map RE.strCI))
    (.seq (RE.plus (.cls isSpaceCh))
      (.seq (.seq reDigit (RE.repUpTo reDigit 1))
        (.seq (RE.opt (RE.chr ','))
          (.seq (RE.plus (.cls isSpaceCh)) (.seq (RE.rep reDigit 4) .wb))))))

/-- `\b\d{1,2}\s+years?\s+old\b` (IGNORECASE). -/
def reAge : RE :=
  .seq .wb (.seq (.seq reDigit (RE.repUpTo reDigit 1))
    (.seq (RE.plus (.cls isSpaceCh))
      (.seq (RE.strCI "year") (.seq (RE.opt (RE.chrCI 's'))
        (.seq (RE.plus (.cls isSpaceCh)) (.seq (RE.strCI "old") .wb))))))

/-- `\b(?:wife|husband|...|parent)\b` (IGNORECASE). -/
def reFamily : RE :=
  .seq .wb (.seq (RE.anyOf (["wife", "husband", "spouse", "partner", "child", "children",
                             "son", "daughter", "mother", "father", "parent"].map RE.strCI)) .wb)

/-- `PIIRedactor._mask_personal_details`: dates of birth, ages, family
references. -/
def maskPersonalDetails (text : String) : String :=
  reSub reFamily "[FAMILY]" (reSub reAge "[AGE]" (reSub reDob "[DATE]" text))

/-- `\b\d+\b` (no flags). -/
def reNumber : RE := .seq .wb (.seq (RE.plus reDigit) .wb)

/-- `\b[A-Z][a-z]+\b` (no flags; case matters). -/
def reProperNoun : RE :=
  .seq .wb (.seq (.cls (fun c => 'A' ≤ c && c ≤ 'Z'))
    (.seq (RE.plus (.cls (fun c => 'a' ≤ c && c ≤ 'z'))) .wb))

/-- `https?://[^\s]+` (IGNORECASE). -/
def reURL : RE :=
  .seq (RE.strCI "http") (.seq (RE.opt (RE.chrCI 's'))
    (.seq (RE.strCI "://") (RE.plus (.cls (fun c => !isSpaceCh c)))))

/-- `PIIRedactor._maximum_redaction`: numbers, heuristic proper nouns,
URLs. -/
def maximumRedaction (text : String) : String :=
  reSub reURL "[URL]" (reSub reProperNoun "[NAME]" (reSub reNumber "[NUMBER]" text))

/-- `PIIRedactor.redact`, modelled in degraded mode (Presidio is
unavailable: `_init_presidio` caught `ImportError`, `presidio_analyzer`
is `None`, so the `presidio_full` branch never runs). Rules are folded in
the caller-supplied list order; names missing from the registry are
skipped; the work/public secondary passes follow. -/
def redact (text : String) (profile : String) (redaction_rules : List String) : String :=
  if text == "" then text
  else
    let redacted := redaction_rules.foldl
      (fun acc rule =>
        match lookupRule rule with
        | some pr => reSub pr.1 pr.2 acc
        | none => acc) text
    if profile == "work" then maskPersonalDetails redacted
    else if profile == "public" then maximumRedaction redacted
    else redacted

/-! ## Context assembly pipeline (`main.py`, `get_context`)

The ambient collaborators of the endpoint are passed explicitly: the
session table, the loaded policy, the semantic-retrieval collaborator
(`vector_store.search`, a function of query, scopes and limit), the
`scope_data` table, the `MAX_CONTEXT_BYTES` and `CONTEXT_TTL_MINUTES`
settings, the audit-event timestamp, and the current audit chain. `now`
is `datetime.utcnow()`. Python deduplicates fragments by
`hash(content.strip())`; we key the seen-set by the stripped content
itself, which identifies exactly the same fragments absent `hash`
collisions. -/

/-- One result of `vector_store.search` (`score` already rendered with
`str`, as `get_context` stores it). -/
structure VecResult where
  content : String
  source : String
  score : String
deriving Repr, DecidableEq

/-- A citation dict: `type`, `ref`, and `score` for vector hits only. -/
structure Citation where
  type : String
  ref : String
  score : Option String
deriving Repr, DecidableEq

/-- The `/v1/context` request body (`class ContextRequest`). -/
structure ContextRequest where
  session_id : String
  profile : String
  scopes : List String
  prompt : String
deriving Repr

/-- The `/v1/context` success body (`class ContextResponse`). -/
structure ContextResponse where
  context : String
  citations : List Citation
  expires_at : Int
deriving Repr, DecidableEq

/-- The HTTPException categories `get_context` raises: 404 session not
found, 410 session expired, 403 access denied. -/
inductive PipelineError where
  | sessionNotFound
  | sessionExpired
  | accessDenied
deriving Repr, DecidableEq

/-- Python `str.strip()`. -/
def pyStrip (s : String) : String :=
  ⟨((s.data.dropWhile isSpaceCh).reverse.dropWhile isSpaceCh).reverse⟩

/-- Accumulator of the gather loops: context parts, seen fingerprints,
citations. -/
structure GatherState where
  parts : List String
  seen : List String
  citations : List Citation
deriving Repr

/-- The vector-results loop of `get_context`: first-seen-wins dedup by
stripped-content fingerprint. -/
def gatherVector (st : GatherState) (results : List VecResult) : GatherState :=
  results.foldl
    (fun st r =>
      let fp := pyStrip r.content
      if st.seen.contains fp then st
      else ⟨st.parts ++ [r.content], st.seen ++ [fp],
            st.citations ++ [⟨"vector", r.source, some r.score⟩]⟩)
    st

/-- The per-scope structured loop of `get_context`. -/
def gatherScopes (scopeRows : List ScopeData) (st : GatherState) (scopes : List String) :
    GatherState :=
  scopes.foldl
    (fun st scope =>
      match getScopeData scopeRows scope with
      | none => st
      | some sd =>
        let fp := pyStrip sd.content
        if st.seen.contains fp then st
        else ⟨st.parts ++ [sd.content], st.seen ++ [fp],
              st.citations ++ [⟨"structured", "scope:" ++ scope, none⟩]⟩)
    st

/-- `get_context`: validate the session, authorise, gather and dedup
content, redact, bound the size, log `context_provided`, and respond.
Returns the outcome together with the audit chain after the call. -/
def getContext (sessions : List SessionModel) (now : Int) (policy : PolicyEngine)
    (search : String → List String → Nat → List VecResult)
    (scopeRows : List ScopeData) (maxContextBytes : Nat) (contextTtlMinutes : Int)
    (timestamp : String) (auditChain : List AuditRow) (req : ContextRequest) :
    Except PipelineError ContextResponse × List AuditRow :=
  match getSession sessions req.session_id with
  | none => (Except.error .sessionNotFound, auditChain)
  | some session =>
    if session.expires_at < now then (Except.error .sessionExpired, auditChain)
    else if !checkAccess policy req.profile req.scopes then
      (Except.error .accessDenied, auditChain)
    else
      let vectorResults := search req.prompt req.scopes 5
      let st1 := gatherVector ⟨[], [], []⟩ vectorResults
      let st2 := gatherScopes scopeRows st1 req.scopes
      let rawContext := String.intercalate "\n\n" st2.parts
      let redactedContext :=
        redact rawContext req.profile (getRedactionRules policy req.profile)
      let boundedContext := enforceSize redactedContext maxContextBytes
      let md : List (String × Json) :=
        [("scopes", Json.arr (req.scopes.map Json.str)),
         ("prompt_preview", Json.str ⟨req.prompt.data.take 100⟩),
         ("context_size", Json.num (boundedContext.length : Int)),
         ("citations_count", Json.num (st2.citations.length : Int))]
      let newChain := logEvent auditChain
        ⟨"context_provided", some req.session_id, some req.profile, some md, none, timestamp⟩
      (Except.ok ⟨boundedContext, st2.citations, now + contextTtlMinutes⟩, newChain)

/-! # Theorems -/

/-! ## Audit-chain helper lemmas -/

/-- The row `log_event` inserts on a given chain. -/
def logRow (chain : List AuditRow) (a : LogArgs) : AuditRow :=
  let user_token_hash := (pyTruthyStr a.user_token).map tokenHash
  let previous_hash := getLastHash chain
  ⟨a.timestamp, a.event_type, a.session_id, a.profile, user_token_hash, a.metadata.getD [],
   calculateHash ⟨a.timestamp, a.event_type, a.session_id, a.profile, user_token_hash,
     a.metadata.getD []⟩ previous_hash,
   previous_hash⟩

/-- `log_event` is exactly an append of `logRow`. -/
lemma logEvent_eq_append (chain : List AuditRow) (a : LogArgs) :
    logEvent chain a = chain ++ [logRow chain a] := rfl

/-- Last row of a chain presented as a head plus a tail. -/
def lastRow (prev : AuditRow) : List AuditRow → AuditRow
  | [] => prev
  | r :: rs => lastRow r rs

/-- `_get_last_hash` of a nonempty chain is the hash of its last row. -/
lemma getLastHash_cons (r0 : AuditRow) (rest : List AuditRow) :
    getLastHash (r0 :: rest) = some (lastRow r0 rest).hash := by
  induction rest generalizing r0 with
  | nil => rfl
  | cons y ys ih =>
    show getLastHash (r0 :: y :: ys) = some (lastRow y ys).hash
    rw [← ih y]
    simp [getLastHash, List.getLast?_cons_cons]

/-- Appending a correctly hashed and linked row preserves the
`verify_integrity` walk. -/
lemma verifyFrom_append_one (prev r : AuditRow) (rs : List AuditRow)
    (h : verifyFrom prev rs = true)
    (hh : calculateHash r.fields r.previous_hash = r.hash)
    (hp : r.previous_hash = some (lastRow prev rs).hash) :
    verifyFrom prev (rs ++ [r]) = true := by
  induction rs generalizing prev with
  | nil =>
    simp only [List.nil_append, verifyFrom, lastRow] at hp ⊢
    rw [hh, hp]
    simp
  | cons x xs ih =>
    simp only [verifyFrom, Bool.and_eq_true] at h
    simp only [List.cons_append, verifyFrom, Bool.and_eq_true]
    exact ⟨⟨h.1.1, h.1.2⟩, ih x h.2 hp⟩

/-- One `log_event` call preserves chain integrity. -/
lemma verify_logEvent (chain : List AuditRow) (a : LogArgs)
    (h : verifyIntegrity chain = true) : verifyIntegrity (logEvent chain a) = true := by
  rw [logEvent_eq_append]
  cases chain with
  | nil => rfl
  | cons r0 rest =>
    rw [List.cons_append]
    simp only [verifyIntegrity, Bool.and_eq_true] at h ⊢
    exact ⟨h.1, verifyFrom_append_one r0 _ rest h.2 rfl (getLastHash_cons r0 rest)⟩

/-- Any sequence of `log_event` calls preserves chain integrity. -/
lemma verify_appendAll (args : List LogArgs) (chain : List AuditRow)
    (h : verifyIntegrity chain = true) : verifyIntegrity (appendAll chain args) = true := by
  induction args generalizing chain with
  | nil => exact h
  | cons a as ih => exact ih (logEvent chain a) (verify_logEvent chain a h)

/-- The `verify_integrity` walk reads its head argument only through its
`hash` field. -/
lemma verifyFrom_hash_only (p q : AuditRow) (rs : List AuditRow) (h : p.hash = q.hash) :
    verifyFrom p rs = verifyFrom q rs := by
  cases rs with
  | nil => rfl
  | cons r rs => simp [verifyFrom, h]

/-- Replacing the first record by one with the same `hash` and
`previous_hash` (any other fields arbitrary) cannot change the outcome of
`verify_integrity`. -/
lemma verify_head_payload_only (r0 s0 : AuditRow) (rest : List AuditRow)
    (hh : s0.hash = r0.hash) (hp : s0.previous_hash = r0.previous_hash) :
    verifyIntegrity (s0 :: rest) = verifyIntegrity (r0 :: rest) := by
  simp only [verifyIntegrity, hp, verifyFrom_hash_only s0 r0 rest hh]

/-- `appendAll` never changes the head of a nonempty chain. -/
lemma appendAll_head (r : AuditRow) (chain : List AuditRow) (args : List LogArgs) :
    ∃ rest, appendAll (r :: chain) args = r :: rest := by
  induction args generalizing chain with
  | nil => exact ⟨chain, rfl⟩
  | cons a as ih => exact ih (chain ++ [logRow (r :: chain) a])

/-! ## C1: what the store keeps of the caller token -/

/-- C1: refuted at a concrete input. `SQLStore.create_session` persists the
caller token verbatim in the `user_token` column of the returned (and
stored) session row — no owner token hash is involved — while
`AuditLogger.log_event` given the same token stores only the truncated
SHA-256 digest `tokenHash` in `user_token_hash`. The session half of the
claim is false on the code. -/
theorem session_row_stores_raw_token :
    (createSession [] "sess-1" "work" 1000 "raw-secret-token" 0).1.user_token
        = "raw-secret-token"
    ∧ (createSession [] "sess-1" "work" 1000 "raw-secret-token" 0).2
        = [⟨"sess-1", "work", 1000, "raw-secret-token", 0, false⟩]
    ∧ (logEvent [] ⟨"session_created", some "sess-1", some "work", none,
          some "raw-secret-token", "2026-01-01T00:00:00"⟩).map (·.user_token_hash)
        = [some (tokenHash "raw-secret-token")] :=
  ⟨rfl, rfl, rfl⟩

/-! ## C2: tamper detection and the unchecked first record -/

/-- The `log_event` calls building the concrete two-record chain. -/
def c2Args1 : LogArgs :=
  ⟨"session_created", some "s1", some "work", none, none, "2026-01-01T00:00:00"⟩

/-- Second append of the concrete chain. -/
def c2Args2 : LogArgs :=
  ⟨"context_provided", some "s1", some "work", none, none, "2026-01-01T00:00:01"⟩

/-- A two-record chain produced by two `log_event` calls on an empty store. -/
def c2Chain : List AuditRow := appendAll [] [c2Args1, c2Args2]

/-- Tampering: overwrite the `event_type` column of the first stored row,
leaving every other record and column unchanged. -/
def setHeadEventType (chain : List AuditRow) (et : String) : List AuditRow :=
  match chain with
  | [] => []
  | r :: rs => { r with event_type := et } :: rs

/-- C2 counterexample: overwriting the `event_type` field of the first
record of a two-append chain — all other stored fields untouched — leaves
`verify_integrity` returning `true`: the tampering is not detected,
contradicting the claim for the first record. -/
theorem audit_first_record_tamper_undetected :
    (setHeadEventType c2Chain "evil").head?.map (·.event_type) = some "evil"
    ∧ c2Chain.head?.map (·.event_type) = some "session_created"
    ∧ verifyIntegrity (setHeadEventType c2Chain "evil") = true := by
  refine ⟨rfl, rfl, ?_⟩
  obtain ⟨rest, hres⟩ := appendAll_head (logRow [] c2Args1) [] [c2Args2]
  have hchain : c2Chain = logRow [] c2Args1 :: rest := hres
  calc verifyIntegrity (setHeadEventType c2Chain "evil")
      = verifyIntegrity ({ logRow [] c2Args1 with event_type := "evil" } :: rest) := by
        rw [hchain]; exact rfl
    _ = verifyIntegrity (logRow [] c2Args1 :: rest) :=
        verify_head_payload_only (logRow [] c2Args1) _ rest rfl rfl
    _ = verifyIntegrity c2Chain := by rw [hchain]
    _ = true := verify_appendAll [c2Args1, c2Args2] [] rfl

/-- C2 (amended): `verify_integrity` re-checks the stored fields of every
record after the first, but of the first record it checks only that
`previous_hash` is null; replacing the first record by any record with the
same `hash` and `previous_hash` therefore leaves the verification outcome
unchanged, so tampering with the first record payload is never detected. -/
theorem audit_tamper_detection_scope (r0 s0 : AuditRow) (rest : List AuditRow)
    (hh : s0.hash = r0.hash) (hp : s0.previous_hash = r0.previous_hash) :
    verifyIntegrity (s0 :: rest) = verifyIntegrity (r0 :: rest) :=
  verify_head_payload_only r0 s0 rest hh hp

/-- Witness for the amended C2 theorem at a concrete chain and tamper. -/
theorem audit_tamper_detection_scope_witness :
    verifyIntegrity [⟨"t1", "evil", none, none, none, [], "h1", none⟩]
      = verifyIntegrity [⟨"t1", "session_created", none, none, none, [], "h1", none⟩] :=
  audit_tamper_detection_scope
    ⟨"t1", "session_created", none, none, none, [], "h1", none⟩
    ⟨"t1", "evil", none, none, none, [], "h1", none⟩ [] rfl rfl

/-! ## C3: chains built by appends verify -/

/-- C3: for every sequence of `log_event` appends on an initially empty
audit store, `verify_integrity` returns `true`: the first record carries a
null `previous_hash`, each stored `hash` is the recomputed hash of the
record own fields plus the preceding hash, and each `previous_hash` equals
the preceding record hash — which is exactly the conjunction of checks
`verifyIntegrity` performs. -/
theorem audit_chain_append_verifies (args : List LogArgs) :
    verifyIntegrity (appendAll [] args) = true :=
  verify_appendAll args [] rfl

/-! ## C9: concurrent appends can fork the chain -/

/-- First concurrent append. -/
def c9ArgsA : LogArgs :=
  ⟨"session_created", some "sA", none, none, none, "2026-01-01T00:00:00"⟩

/-- Second concurrent append. -/
def c9ArgsB : LogArgs :=
  ⟨"session_created", some "sB", none, none, none, "2026-01-01T00:00:00"⟩

/-- The read-read-insert-insert interleaving of two concurrent `log_event`
calls on an empty store: both tail reads complete (each in its own
`aiosqlite` connection, with `await` suspension points before the inserts)
before either insert runs, so both observe the empty tail. -/
def c9Interleaved : List AuditRow :=
  let tailA := readTailPhase []
  let tailB := readTailPhase []
  let chain1 := insertPhase [] c9ArgsA tailA
  insertPhase chain1 c9ArgsB tailB

/-- The first row of the interleaved execution. -/
def c9RowA : AuditRow := logRow [] c9ArgsA

/-- The second row of the interleaved execution: its `previous_hash` is the
stale tail B observed. -/
def c9RowB : AuditRow :=
  ⟨"2026-01-01T00:00:00", "session_created", some "sB", none, none, [],
   calculateHash ⟨"2026-01-01T00:00:00", "session_created", some "sB", none, none, []⟩ none,
   none⟩

/-- C9: refuted. `log_event` reads the tail hash and inserts the new row in
two separate transactions with `await` suspension points between them and
takes no lock, so the read-read-insert-insert interleaving of two appends
is possible; in it both appends observe the same (empty) tail, the second
record `previous_hash` (null) is not the hash of the record appended
immediately before it, and `verify_integrity` finds the chain forked. -/
theorem audit_concurrent_appends_fork_chain :
    c9Interleaved.length = 2
    ∧ (c9Interleaved.map (·.previous_hash)) = [none, none]
    ∧ c9Interleaved.get? 1 = some c9RowB
    ∧ c9RowB.previous_hash ≠ some c9RowA.hash
    ∧ verifyIntegrity c9Interleaved = false := by
  have hc : c9Interleaved = [c9RowA, c9RowB] := rfl
  refine ⟨rfl, rfl, rfl, fun h => Option.noConfusion h, ?_⟩
  have hb : (c9RowB.previous_hash == some c9RowA.hash) = false := rfl
  rw [hc]
  simp only [verifyIntegrity, verifyFrom, hb, Bool.and_false, Bool.false_and, Bool.and_true]

/-! ## C4: the size clamp can exceed the ceiling and cut mid-word -/

/-- C4: refuted at a concrete input. With ceiling 10 and the 15-byte
redacted text `"abcdefghijklmno"` (no whitespace in the first 10
characters), the clamp keeps the partial word and appends the marker,
producing 13 bytes: the ceiling is exceeded and the cut is mid-word with no
whitespace boundary at all in the output. -/
theorem size_clamp_violates_ceiling :
    utf8Len "abcdefghijklmno" = 15
    ∧ enforceSize "abcdefghijklmno" 10 = "abcdefghij..."
    ∧ utf8Len (enforceSize "abcdefghijklmno" 10) = 13
    ∧ ((enforceSize "abcdefghijklmno" 10).data.contains ' ') = false := by
  exact ⟨by decide, by decide, by decide, by decide⟩

/-! ## C5: the unknown-profile sentinel performs no redaction -/

/-- A loaded policy document without the profile `"ghost"`. -/
def c5Engine : PolicyEngine :=
  ⟨[("work", ⟨some ["bio.basic"], some ["mask_emails"]⟩)]⟩

/-- C5: refuted at a concrete input. For the unknown profile `"ghost"` the
policy engine returns the `['mask_all']` sentinel, but `'mask_all'` is not
a key of the redactor registry, so `redact` silently skips it and returns
the text unchanged — even though the text contains an email address that
the registered `mask_emails` rule does match and redact. The fail-closed
sentinel is effectively no redaction. -/
theorem unknown_profile_sentinel_is_noop :
    getRedactionRules c5Engine "ghost" = ["mask_all"]
    ∧ redact "Contact user@example.com" "ghost" ["mask_all"]
        = "Contact user@example.com"
    ∧ redact "Contact user@example.com" "ghost" ["mask_emails"]
        = "Contact [EMAIL]" := by
  exact ⟨rfl, rfl, by decide⟩

/-! ## C6: rules apply in caller order, and order matters -/

/-- C6 counterexample: two permutations of the same rule set produce
different outputs, so `redact` does not impose the engine registry order. -/
theorem redact_rule_order_counterexample :
    redact "1234567890123456" "test_profile" ["drop_phone", "mask_credit_card"]
      ≠ redact "1234567890123456" "test_profile" ["mask_credit_card", "drop_phone"] := by
  decide

/-- C6 (amended): `redact` folds the rules in the caller-supplied list
order. On sixteen digits, applying `drop_phone` first consumes a
thirteen-digit span and destroys the credit-card match, while applying
`mask_credit_card` first consumes all sixteen digits; the caller order
decides which. -/
theorem redact_applies_rules_in_caller_order :
    redact "1234567890123456" "test_profile" ["drop_phone", "mask_credit_card"]
        = "[PHONE]456"
    ∧ redact "1234567890123456" "test_profile" ["mask_credit_card", "drop_phone"]
        = "[CREDIT_CARD]" := by
  exact ⟨by decide, by decide⟩

/-! ## C7: rejections short-circuit with no side effects -/

/-- C7: whenever `get_context` rejects — session absent or revoked (both
make `get_session` return `None`), session expired, or `check_access`
false — the result is an error and the audit chain is unchanged: no
`context_provided` record is appended and no content is returned. -/
theorem pipeline_rejection_no_side_effects
    (sessions : List SessionModel) (now : Int) (policy : PolicyEngine)
    (search : String → List String → Nat → List VecResult)
    (scopeRows : List ScopeData) (maxContextBytes : Nat) (contextTtlMinutes : Int)
    (timestamp : String) (auditChain : List AuditRow) (req : ContextRequest)
    (h : getSession sessions req.session_id = none
       ∨ (∃ v, getSession sessions req.session_id = some v ∧ v.expires_at < now)
       ∨ checkAccess policy req.profile req.scopes = false) :
    (∃ e, (getContext sessions now policy search scopeRows maxContextBytes
            contextTtlMinutes timestamp auditChain req).1 = Except.error e)
    ∧ (getContext sessions now policy search scopeRows maxContextBytes
        contextTtlMinutes timestamp auditChain req).2 = auditChain := by
  cases hs : getSession sessions req.session_id with
  | none =>
    exact ⟨⟨.sessionNotFound, by simp [getContext, hs]⟩, by simp [getContext, hs]⟩
  | some v =>
    by_cases hexp : v.expires_at < now
    · exact ⟨⟨.sessionExpired, by simp [getContext, hs, hexp]⟩,
        by simp [getContext, hs, hexp]⟩
    · have hca : checkAccess policy req.profile req.scopes = false := by
        rcases h with h1 | ⟨w, hw, hwexp⟩ | h3
        · rw [h1] at hs; cases hs
        · rw [hs] at hw
          injection hw with hvw
          rw [← hvw] at hwexp
          exact absurd hwexp hexp
        · exact h3
      exact ⟨⟨.accessDenied, by simp [getContext, hs, hexp, hca]⟩,
        by simp [getContext, hs, hexp, hca]⟩

/-- Witness for C7: a request for a session id absent from the store is
rejected and appends nothing to the audit chain. -/
theorem pipeline_rejection_no_side_effects_witness :
    (∃ e, (getContext [] 0 ⟨[]⟩ (fun _ _ _ => []) [] 0 0 "t" []
            ⟨"missing", "work", [], "hello"⟩).1 = Except.error e)
    ∧ (getContext [] 0 ⟨[]⟩ (fun _ _ _ => []) [] 0 0 "t" []
        ⟨"missing", "work", [], "hello"⟩).2 = [] :=
  pipeline_rejection_no_side_effects [] 0 ⟨[]⟩ (fun _ _ _ => []) [] 0 0 "t" []
    ⟨"missing", "work", [], "hello"⟩ (Or.inl rfl)

/-! ## C8: what `revoke_session` actually returns -/

/-- Unfolding `find?` on a matching head. -/
lemma find?_cons_pos (p : SessionModel → Bool) (a : SessionModel) (l : List SessionModel)
    (h : p a = true) : (a :: l).find? p = some a := by
  simp [List.find?, h]

/-- Unfolding `find?` past a non-matching head. -/
lemma find?_cons_neg (p : SessionModel → Bool) (a : SessionModel) (l : List SessionModel)
    (h : p a = false) : (a :: l).find? p = l.find? p := by
  simp [List.find?, h]

/-- `find?` over the conditional revoked-flag update commutes with the
update, since the predicate only reads `id`. -/
lemma find?_revoke_update (store : List SessionModel) (sid : String) :
    (store.map (fun s => if s.id == sid then { s with revoked := true } else s)).find?
        (fun s => s.id == sid)
      = (store.find? (fun s => s.id == sid)).map (fun s => { s with revoked := true }) := by
  induction store with
  | nil => rfl
  | cons x xs ih =>
    cases h : x.id == sid with
    | true =>
      rw [List.map_cons, if_pos h, find?_cons_pos _ _ _ h, find?_cons_pos _ _ _ h,
        Option.map_some']
    | false =>
      rw [List.map_cons, if_neg (by simp [h]), find?_cons_neg _ _ _ h,
        find?_cons_neg _ _ _ h, ih]

/-- The result flag of `revoke_session` only records whether a row with
that id exists, revoked or not. -/
lemma revokeSession_fst (store : List SessionModel) (sid : String) :
    (revokeSession store sid).1 = (store.find? (fun s => s.id == sid)).isSome := by
  cases hf : store.find? (fun s => s.id == sid) <;>
    simp only [revokeSession, hf, Option.isSome_some, Option.isSome_none]

/-- The store after `revoke_session`: the matching row, if any, has its
`revoked` flag set. -/
lemma revokeSession_snd_find (store : List SessionModel) (sid : String) :
    (revokeSession store sid).2.find? (fun s => s.id == sid)
      = (store.find? (fun s => s.id == sid)).map (fun s => { s with revoked := true }) := by
  cases hf : store.find? (fun s => s.id == sid) with
  | none => simp only [revokeSession, hf, Option.map_none']
  | some s =>
    simp only [revokeSession, hf, Option.map_some']
    rw [find?_revoke_update, hf, Option.map_some']

/-- C8 counterexample: revoking an already-revoked session returns `True`
(first conjunct, direct store state), and a second revocation of a
just-revoked session also returns `True` (second conjunct) — the claim
says both return false. -/
theorem revoke_already_revoked_returns_true :
    (revokeSession [⟨"s1", "work", 1000, "tok", 0, true⟩] "s1").1 = true
    ∧ (revokeSession (revokeSession [⟨"s1", "work", 1000, "tok", 0, false⟩] "s1").2 "s1").1
        = true :=
  ⟨rfl, rfl⟩

/-- C8 (amended): `revoke_session` returns `False` exactly when no row
with the given id exists at all; for an existing session — live or already
revoked — it returns `True` and durably leaves the row with
`revoked = True`, so a second revocation of the same session returns
`True` again, not `False`. -/
theorem revoke_session_semantics (store : List SessionModel) (sid : String) :
    ((revokeSession store sid).1 = (store.find? (fun s => s.id == sid)).isSome)
    ∧ ((revokeSession store sid).2.find? (fun s => s.id == sid)
        = (store.find? (fun s => s.id == sid)).map (fun s => { s with revoked := true }))
    ∧ ((revokeSession (revokeSession store sid).2 sid).1 = (revokeSession store sid).1) := by
  refine ⟨revokeSession_fst store sid, revokeSession_snd_find store sid, ?_⟩
  rw [revokeSession_fst (revokeSession store sid).2 sid, revokeSession_fst store sid,
    revokeSession_snd_find store sid]
  cases store.find? (fun s => s.id == sid) <;> rfl

/-! ## C10: the pipeline never reads the stored session profile -/

/-- C10: two `get_context` runs identical in every input except the
profile stored in the session row (the session existing and unexpired)
produce identical outcomes — response and audit chain alike — because the
pipeline authorises, redacts and logs with the request-body profile and
reads only `expires_at` from the stored session. -/
theorem pipeline_ignores_stored_session_profile
    (sessions sessions2 : List SessionModel) (now : Int) (policy : PolicyEngine)
    (search : String → List String → Nat → List VecResult)
    (scopeRows : List ScopeData) (maxContextBytes : Nat) (contextTtlMinutes : Int)
    (timestamp : String) (auditChain : List AuditRow) (req : ContextRequest)
    (v : SessionView) (p2 : String)
    (h1 : getSession sessions req.session_id = some v)
    (h2 : ¬ v.expires_at < now)
    (h3 : getSession sessions2 req.session_id = some { v with profile := p2 }) :
    getContext sessions now policy search scopeRows maxContextBytes contextTtlMinutes
        timestamp auditChain req
      = getContext sessions2 now policy search scopeRows maxContextBytes contextTtlMinutes
          timestamp auditChain req := by
  simp only [getContext, h1, h3]

/-- Witness for C10: identical stores except the stored profile
(`"alpha"` versus `"beta"`) yield the same response. -/
theorem pipeline_ignores_stored_session_profile_witness :
    getContext [⟨"s1", "alpha", 100, "tok", 0, false⟩] 0 ⟨[]⟩ (fun _ _ _ => []) [] 0 0 "t" []
        ⟨"s1", "work", [], "hi"⟩
      = getContext [⟨"s1", "beta", 100, "tok", 0, false⟩] 0 ⟨[]⟩ (fun _ _ _ => []) [] 0 0 "t" []
          ⟨"s1", "work", [], "hi"⟩ :=
  pipeline_ignores_stored_session_profile
    [⟨"s1", "alpha", 100, "tok", 0, false⟩] [⟨"s1", "beta", 100, "tok", 0, false⟩]
    0 ⟨[]⟩ (fun _ _ _ => []) [] 0 0 "t" [] ⟨"s1", "work", [], "hi"⟩
    ⟨"s1", "alpha", 100, 0⟩ "beta" rfl (by decide) rfl

end Synm
